import Mathlib

/-!
# Verification of `utf8clen` (mah0x211/utf8clen)

Shallow embedding of `src/utf8clen.h` — a single-character UTF-8 length
classifier over NUL-terminated byte buffers — together with proofs of the
specification's properties.

Modelling conventions:
* A buffer is a `List Nat` of byte values; reading at an index past the end
  of the list yields `0`, mirroring the guaranteed NUL terminator of the C
  string convention (`byteAt`).
* The body of `utf8clen` after its null-pointer check is `utf8clen_core`,
  returning the `size_t` result paired with `Option Nat`: `some k` when the
  code executes `*illlen = k` (the `count_illegal_sequences` macro), `none`
  when `*illlen` is left untouched.
* The pointer-level entry point `utf8clen` models the two pointer arguments
  as `Option`s (`none` = NULL) and returns the result value, the final
  contents of `*illlen`, and the errno effect.
* `utf8clenChecked` re-runs the same algorithm with `Option`-returning
  indexing that refuses any read beyond the first NUL terminator; proving it
  equal to `some (utf8clen_core s)` shows the C code never reads past the
  terminator.
-/

/-- Byte read from a NUL-terminated buffer: past the end of the stored bytes
the read yields the terminator `0`. Mirrors `s[i]` on a C string. -/
def byteAt (s : List Nat) (i : Nat) : Nat := s.getD i 0

/-- The value of SIZE_MAX for the 64-bit size_t used by the source. -/
def SIZE_MAX : Nat := 2 ^ 64 - 1

/-- The errno value EINVAL. -/
def EINVAL : Nat := 22

/-- The `is_utf8tail(c)` macro: `((c) & 0xC0) == 0x80`. -/
def is_utf8tail (c : Nat) : Bool := c &&& 0xC0 == 0x80

/-- The `is_utf8firstb(c)` macro: ASCII or one of the multi-byte lead ranges. -/
def is_utf8firstb (c : Nat) : Bool :=
  c ≤ 0x7F || (0xC2 ≤ c && c ≤ 0xDF) || (0xE0 ≤ c && c ≤ 0xEF) ||
    (0xF0 ≤ c && c ≤ 0xF4)

/-- The loop of the `count_illegal_sequences(max)` macro: starting at offset
`len`, advance while the byte there is non-NUL, `len < max`, and the byte is
not a valid first byte; the result is the final `len` stored into `*illlen`. -/
def count_illegal_loop (s : List Nat) (max : Nat) (len : Nat) : Nat :=
  if byteAt s len ≠ 0 ∧ len < max ∧ is_utf8firstb (byteAt s len) = false then
    count_illegal_loop s max (len + 1)
  else
    len
termination_by s.length - len
decreasing_by
  have hlt : len < s.length := by
    by_contra hge
    exact (by assumption : byteAt s len ≠ 0 ∧ _).1
      (by simp [byteAt, List.getD_eq_getElem?_getD, List.getElem?_eq_none
            (by omega : s.length ≤ len)])
  omega

/-- The macro body of count_illegal_sequences(max) always enters its loop
with offset 1. -/
def count_illegal_sequences (s : List Nat) (max : Nat) : Nat :=
  count_illegal_loop s max 1

/-- Body of `utf8clen` after the parameter check (lines 68-160 of
`utf8clen.h`): returns the `size_t` return value together with `some k`
iff the code wrote `*illlen = k`. -/
def utf8clen_core (s : List Nat) : Nat × Option Nat :=
  let c := byteAt s 0
  -- 1 byte: 00-7F (ASCII)
  if c ≤ 0x7F then (1, none)
  -- 2 byte: C2-DF 80-BF
  else if 0xC2 ≤ c ∧ c ≤ 0xDF then
    if is_utf8tail (byteAt s 1) = true then (2, none)
    else (0, some (count_illegal_sequences s 2))
  -- 3 byte: E0 A0-BF 80-BF
  else if c = 0xE0 then
    if 0xA0 ≤ byteAt s 1 ∧ byteAt s 1 ≤ 0xBF ∧ is_utf8tail (byteAt s 2) = true
    then (3, none)
    else (0, some (count_illegal_sequences s 3))
  -- 3 byte: E1-EC 2(80-BF), EE-EF 2(80-BF)
  else if (0xE1 ≤ c ∧ c ≤ 0xEC) ∨ (0xEE ≤ c ∧ c ≤ 0xEF) then
    if is_utf8tail (byteAt s 1) = true ∧ is_utf8tail (byteAt s 2) = true
    then (3, none)
    else (0, some (count_illegal_sequences s 3))
  -- 3 byte: ED 80-9F 80-BF
  else if c = 0xED then
    if 0x80 ≤ byteAt s 1 ∧ byteAt s 1 ≤ 0x9F ∧ is_utf8tail (byteAt s 2) = true
    then (3, none)
    else (0, some (count_illegal_sequences s 3))
  -- 4 byte: F0 90-BF 2(80-BF)
  else if c = 0xF0 then
    if 0x90 ≤ byteAt s 1 ∧ byteAt s 1 ≤ 0xBF ∧
        is_utf8tail (byteAt s 2) = true ∧ is_utf8tail (byteAt s 3) = true
    then (4, none)
    else (0, some (count_illegal_sequences s 4))
  -- 4 byte: F1-F3 3(80-BF)
  else if 0xF1 ≤ c ∧ c ≤ 0xF3 then
    if is_utf8tail (byteAt s 1) = true ∧ is_utf8tail (byteAt s 2) = true ∧
        is_utf8tail (byteAt s 3) = true
    then (4, none)
    else (0, some (count_illegal_sequences s 4))
  -- 4 byte: F4 80-8F 2(80-BF)
  else if c = 0xF4 then
    if 0x80 ≤ byteAt s 1 ∧ byteAt s 1 ≤ 0x8F ∧
        is_utf8tail (byteAt s 2) = true ∧ is_utf8tail (byteAt s 3) = true
    then (4, none)
    else (0, some (count_illegal_sequences s 4))
  -- 80-C1, F5-FF: never a valid lead byte
  else (0, some (count_illegal_sequences s SIZE_MAX))

/-- Index of the first NUL in the buffer (the length if none is stored; the
implicit terminator sits there). Reads at indices `≤ nulIdx s` stay within
the NUL-terminated string; reads beyond it would be out of bounds in C. -/
def nulIdx : List Nat → Nat
  | [] => 0
  | b :: rest => if b = 0 then 0 else nulIdx rest + 1

/-- Bounds-checked byte read: `none` models an out-of-bounds access past the
NUL terminator. -/
def byteAt? (s : List Nat) (i : Nat) : Option Nat :=
  if i ≤ nulIdx s then some (byteAt s i) else none

/-- Result of a full call to `utf8clen`: return value, final contents of
`*illlen` (`none` when the pointer is NULL), and the errno written (if any). -/
structure CallResult where
  ret : Nat
  ill : Option Nat
  errno : Option Nat
deriving DecidableEq, Repr

/-- The full `utf8clen` entry point (lines 48-165): `s = none` models a NULL
buffer pointer, `illlen = none` a NULL output pointer and `illlen = some v`
a pointer at a cell currently holding `v`. -/
def utf8clen (s : Option (List Nat)) (illlen : Option Nat) : CallResult :=
  match s, illlen with
  | some buf, some ill =>
    let r := utf8clen_core buf
    { ret := r.1
      ill := some (match r.2 with | some k => k | none => ill)
      errno := none }
  | _, _ => { ret := SIZE_MAX, ill := illlen, errno := some EINVAL }

/-- The `count_illegal_sequences` loop re-run with bounds-checked reads:
`none` signals that the C code would have read past the NUL terminator. -/
def count_illegal_loop? (s : List Nat) (max : Nat) (len : Nat) : Option Nat :=
  match h : byteAt? s len with
  | none => none
  | some c =>
    if hc : c ≠ 0 ∧ len < max ∧ is_utf8firstb c = false then
      count_illegal_loop? s max (len + 1)
    else some len
termination_by s.length - len
decreasing_by
  unfold byteAt? at h
  split at h
  · have hlt : len < s.length := by
      by_contra hge
      have hz : byteAt s len = 0 := List.getD_eq_default _ _ (by omega)
      exact hc.1 (by rw [← Option.some.inj h, hz])
    omega
  · exact absurd h (by simp)

/-- The classifier body re-run with bounds-checked reads, preserving the C
source's short-circuit evaluation order (a later byte is read only after the
earlier byte was found non-NUL): `none` signals an out-of-bounds read. -/
def utf8clenChecked (s : List Nat) : Option (Nat × Option Nat) :=
  Option.bind (byteAt? s 0) fun c =>
  if c ≤ 0x7F then some (1, none)
  else if 0xC2 ≤ c ∧ c ≤ 0xDF then
    Option.bind (byteAt? s 1) fun c1 =>
    if is_utf8tail c1 = true then some (2, none)
    else Option.map (fun k => (0, some k)) (count_illegal_loop? s 2 1)
  else if c = 0xE0 then
    Option.bind (byteAt? s 1) fun c1 =>
    if 0xA0 ≤ c1 ∧ c1 ≤ 0xBF then
      Option.bind (byteAt? s 2) fun c2 =>
      if is_utf8tail c2 = true then some (3, none)
      else Option.map (fun k => (0, some k)) (count_illegal_loop? s 3 1)
    else Option.map (fun k => (0, some k)) (count_illegal_loop? s 3 1)
  else if (0xE1 ≤ c ∧ c ≤ 0xEC) ∨ (0xEE ≤ c ∧ c ≤ 0xEF) then
    Option.bind (byteAt? s 1) fun c1 =>
    if is_utf8tail c1 = true then
      Option.bind (byteAt? s 2) fun c2 =>
      if is_utf8tail c2 = true then some (3, none)
      else Option.map (fun k => (0, some k)) (count_illegal_loop? s 3 1)
    else Option.map (fun k => (0, some k)) (count_illegal_loop? s 3 1)
  else if c = 0xED then
    Option.bind (byteAt? s 1) fun c1 =>
    if 0x80 ≤ c1 ∧ c1 ≤ 0x9F then
      Option.bind (byteAt? s 2) fun c2 =>
      if is_utf8tail c2 = true then some (3, none)
      else Option.map (fun k => (0, some k)) (count_illegal_loop? s 3 1)
    else Option.map (fun k => (0, some k)) (count_illegal_loop? s 3 1)
  else if c = 0xF0 then
    Option.bind (byteAt? s 1) fun c1 =>
    if 0x90 ≤ c1 ∧ c1 ≤ 0xBF then
      Option.bind (byteAt? s 2) fun c2 =>
      if is_utf8tail c2 = true then
        Option.bind (byteAt? s 3) fun c3 =>
        if is_utf8tail c3 = true then some (4, none)
        else Option.map (fun k => (0, some k)) (count_illegal_loop? s 4 1)
      else Option.map (fun k => (0, some k)) (count_illegal_loop? s 4 1)
    else Option.map (fun k => (0, some k)) (count_illegal_loop? s 4 1)
  else if 0xF1 ≤ c ∧ c ≤ 0xF3 then
    Option.bind (byteAt? s 1) fun c1 =>
    if is_utf8tail c1 = true then
      Option.bind (byteAt? s 2) fun c2 =>
      if is_utf8tail c2 = true then
        Option.bind (byteAt? s 3) fun c3 =>
        if is_utf8tail c3 = true then some (4, none)
        else Option.map (fun k => (0, some k)) (count_illegal_loop? s 4 1)
      else Option.map (fun k => (0, some k)) (count_illegal_loop? s 4 1)
    else Option.map (fun k => (0, some k)) (count_illegal_loop? s 4 1)
  else if c = 0xF4 then
    Option.bind (byteAt? s 1) fun c1 =>
    if 0x80 ≤ c1 ∧ c1 ≤ 0x8F then
      Option.bind (byteAt? s 2) fun c2 =>
      if is_utf8tail c2 = true then
        Option.bind (byteAt? s 3) fun c3 =>
        if is_utf8tail c3 = true then some (4, none)
        else Option.map (fun k => (0, some k)) (count_illegal_loop? s 4 1)
      else Option.map (fun k => (0, some k)) (count_illegal_loop? s 4 1)
    else Option.map (fun k => (0, some k)) (count_illegal_loop? s 4 1)
  else Option.map (fun k => (0, some k)) (count_illegal_loop? s SIZE_MAX 1)

/-- A correct UTF-8 encoder (the standard minimal-length encoding of a
scalar value), used to state the round-trip property. Not part of the
repository; it is the reference encoder the spec quantifies over. -/
def utf8encode (cp : Nat) : List Nat :=
  if cp < 0x80 then [cp]
  else if cp < 0x800 then
    [0xC0 + cp / 0x40, 0x80 + cp % 0x40]
  else if cp < 0x10000 then
    [0xE0 + cp / 0x1000, 0x80 + cp / 0x40 % 0x40, 0x80 + cp % 0x40]
  else
    [0xF0 + cp / 0x40000, 0x80 + cp / 0x1000 % 0x40, 0x80 + cp / 0x40 % 0x40,
      0x80 + cp % 0x40]

/-- Per-lead-byte cap applied by the invalid-run scanner: the `max` argument
each call site of `count_illegal_sequences` passes for that lead byte. -/
def leadCap (c : Nat) : Nat :=
  if 0xC2 ≤ c ∧ c ≤ 0xDF then 2
  else if 0xE0 ≤ c ∧ c ≤ 0xEF then 3
  else if 0xF0 ≤ c ∧ c ≤ 0xF4 then 4
  else SIZE_MAX

/-! ## Basic facts about byte access -/

theorem byteAt_nil (i : Nat) : byteAt [] i = 0 := List.getD_nil

theorem byteAt_cons_zero (b : Nat) (rest : List Nat) :
    byteAt (b :: rest) 0 = b := List.getD_cons_zero

theorem byteAt_cons_succ (b : Nat) (rest : List Nat) (i : Nat) :
    byteAt (b :: rest) (i + 1) = byteAt rest i := List.getD_cons_succ

theorem byteAt_lt_length (s : List Nat) (i : Nat) (h : byteAt s i ≠ 0) :
    i < s.length := by
  by_contra hge
  exact h (List.getD_eq_default _ _ (by omega))

set_option maxRecDepth 4096 in
theorem is_utf8tail_iff :
    ∀ c < 0x100, (is_utf8tail c = true ↔ 0x80 ≤ c ∧ c ≤ 0xBF) := by decide

theorem is_utf8firstb_iff (c : Nat) :
    is_utf8firstb c = true ↔
      c ≤ 0x7F ∨ (0xC2 ≤ c ∧ c ≤ 0xDF) ∨ (0xE0 ≤ c ∧ c ≤ 0xEF) ∨
        (0xF0 ≤ c ∧ c ≤ 0xF4) := by
  simp [is_utf8firstb, Bool.or_eq_true, Bool.and_eq_true, decide_eq_true_eq]
  tauto

theorem byteAt_nulIdx (s : List Nat) : byteAt s (nulIdx s) = 0 := by
  induction s with
  | nil => exact List.getD_nil
  | cons b rest ih =>
    by_cases hb : b = 0
    · simp [nulIdx, hb, byteAt_cons_zero]
    · rw [nulIdx, if_neg hb, byteAt_cons_succ]
      exact ih

theorem lt_nulIdx (s : List Nat) (i : Nat) (h : byteAt s i ≠ 0)
    (hle : i ≤ nulIdx s) : i < nulIdx s := by
  rcases Nat.eq_or_lt_of_le hle with heq | h2
  · have hz : byteAt s i = 0 := by rw [heq]; exact byteAt_nulIdx s
    exact absurd hz h
  · exact h2

theorem byteAt?_eq_some (s : List Nat) (i : Nat) (h : i ≤ nulIdx s) :
    byteAt? s i = some (byteAt s i) := if_pos h

/-! ## Properties of the illegal-run loop -/

theorem count_illegal_loop_ge (s : List Nat) (max len : Nat) :
    len ≤ count_illegal_loop s max len := by
  induction len using count_illegal_loop.induct s max with
  | case1 len h ih => rw [count_illegal_loop, if_pos h]; omega
  | case2 len h => rw [count_illegal_loop, if_neg h]

theorem count_illegal_loop_le (s : List Nat) (max : Nat) :
    ∀ len, len ≤ max → count_illegal_loop s max len ≤ max := by
  intro len
  induction len using count_illegal_loop.induct s max with
  | case1 len h ih =>
    intro _
    rw [count_illegal_loop, if_pos h]
    exact ih (by omega)
  | case2 len h =>
    intro hle
    rw [count_illegal_loop, if_neg h]
    exact hle

theorem count_illegal_loop_mid (s : List Nat) (max : Nat) :
    ∀ len i, len ≤ i → i < count_illegal_loop s max len →
      byteAt s i ≠ 0 ∧ is_utf8firstb (byteAt s i) = false ∧ i < max := by
  intro len
  induction len using count_illegal_loop.induct s max with
  | case1 len h ih =>
    intro i hle hlt
    rw [count_illegal_loop, if_pos h] at hlt
    rcases Nat.eq_or_lt_of_le hle with heq | h2
    · rw [← heq]
      exact ⟨h.1, h.2.2, h.2.1⟩
    · exact ih i h2 hlt
  | case2 len h =>
    intro i hle hlt
    rw [count_illegal_loop, if_neg h] at hlt
    omega

theorem count_illegal_loop_stop (s : List Nat) (max : Nat) :
    ∀ len, len ≤ max →
      byteAt s (count_illegal_loop s max len) = 0 ∨
      is_utf8firstb (byteAt s (count_illegal_loop s max len)) = true ∨
      count_illegal_loop s max len = max := by
  intro len
  induction len using count_illegal_loop.induct s max with
  | case1 len h ih =>
    intro _
    rw [count_illegal_loop, if_pos h]
    exact ih (by omega)
  | case2 len h =>
    intro hle
    rw [count_illegal_loop, if_neg h]
    by_cases h0 : byteAt s len = 0
    · exact Or.inl h0
    by_cases hf : is_utf8firstb (byteAt s len) = true
    · exact Or.inr (Or.inl hf)
    · have hm : ¬len < max := fun hlt => h ⟨h0, hlt, by simpa using hf⟩
      exact Or.inr (Or.inr (by omega))

theorem count_illegal_loop_of_zero (s : List Nat) (max len : Nat)
    (h : byteAt s len = 0) : count_illegal_loop s max len = len := by
  rw [count_illegal_loop, if_neg (by simp [h])]

theorem count_illegal_loop_of_firstb (s : List Nat) (max len : Nat)
    (h : is_utf8firstb (byteAt s len) = true) :
    count_illegal_loop s max len = len := by
  rw [count_illegal_loop, if_neg (by simp [h])]

theorem count_illegal_loop?_eq (s : List Nat) (max : Nat) :
    ∀ len, len ≤ nulIdx s →
      count_illegal_loop? s max len = some (count_illegal_loop s max len) := by
  intro len
  induction len using count_illegal_loop.induct s max with
  | case1 len h ih =>
    intro hle
    have hlt : len < nulIdx s := lt_nulIdx s len h.1 hle
    rw [count_illegal_loop, if_pos h, ← ih (by omega)]
    rw [count_illegal_loop?]
    rw [byteAt?_eq_some s len hle]
    simp only [dif_pos h]
  | case2 len h =>
    intro hle
    rw [count_illegal_loop, if_neg h]
    rw [count_illegal_loop?]
    rw [byteAt?_eq_some s len hle]
    simp only [dif_neg h]

theorem is_utf8tail_ne_zero (c : Nat) (h : is_utf8tail c = true) : c ≠ 0 := by
  intro h0
  rw [h0] at h
  exact absurd h (by decide)

theorem nulIdx_succ_le (s : List Nat) (i : Nat) (h : byteAt s i ≠ 0)
    (hle : i ≤ nulIdx s) : i + 1 ≤ nulIdx s := lt_nulIdx s i h hle

theorem map_loop?_eq (s : List Nat) (max : Nat) (h1 : 1 ≤ nulIdx s) :
    Option.map (fun k => ((0 : Nat), some k)) (count_illegal_loop? s max 1) =
      some (0, some (count_illegal_sequences s max)) := by
  rw [count_illegal_loop?_eq s max 1 h1, Option.map_some']
  rfl

/-- The bounds-checked rerun agrees with the direct model and, in particular,
never aborts on an out-of-bounds read. -/
theorem utf8clenChecked_eq_core (s : List Nat) :
    utf8clenChecked s = some (utf8clen_core s) := by
  have h0 : byteAt? s 0 = some (byteAt s 0) := byteAt?_eq_some s 0 (Nat.zero_le _)
  unfold utf8clenChecked utf8clen_core
  simp only [h0, Option.some_bind]
  by_cases hA : byteAt s 0 ≤ 0x7F
  · rw [if_pos hA, if_pos hA]
  · rw [if_neg hA, if_neg hA]
    have h1 : 1 ≤ nulIdx s := nulIdx_succ_le s 0 (by omega) (Nat.zero_le _)
    have h1r : byteAt? s 1 = some (byteAt s 1) := byteAt?_eq_some s 1 h1
    by_cases hB : 0xC2 ≤ byteAt s 0 ∧ byteAt s 0 ≤ 0xDF
    · rw [if_pos hB, if_pos hB, h1r, Option.some_bind]
      by_cases ht1 : is_utf8tail (byteAt s 1) = true
      · rw [if_pos ht1, if_pos ht1]
      · rw [if_neg ht1, if_neg ht1, map_loop?_eq s 2 h1]
    · rw [if_neg hB, if_neg hB]
      by_cases hC : byteAt s 0 = 0xE0
      · rw [if_pos hC, if_pos hC, h1r, Option.some_bind]
        by_cases hr : 0xA0 ≤ byteAt s 1 ∧ byteAt s 1 ≤ 0xBF
        · have h2 : 2 ≤ nulIdx s := nulIdx_succ_le s 1 (by omega) h1
          have h2r : byteAt? s 2 = some (byteAt s 2) := byteAt?_eq_some s 2 h2
          rw [if_pos hr, h2r, Option.some_bind]
          by_cases ht2 : is_utf8tail (byteAt s 2) = true
          · rw [if_pos ht2, if_pos ⟨hr.1, hr.2, ht2⟩]
          · rw [if_neg ht2, if_neg (by tauto), map_loop?_eq s 3 h1]
        · rw [if_neg hr, if_neg (by tauto), map_loop?_eq s 3 h1]
      · rw [if_neg hC, if_neg hC]
        by_cases hD : (0xE1 ≤ byteAt s 0 ∧ byteAt s 0 ≤ 0xEC) ∨
            (0xEE ≤ byteAt s 0 ∧ byteAt s 0 ≤ 0xEF)
        · rw [if_pos hD, if_pos hD, h1r, Option.some_bind]
          by_cases ht1 : is_utf8tail (byteAt s 1) = true
          · have h2 : 2 ≤ nulIdx s :=
              nulIdx_succ_le s 1 (is_utf8tail_ne_zero _ ht1) h1
            have h2r : byteAt? s 2 = some (byteAt s 2) := byteAt?_eq_some s 2 h2
            rw [if_pos ht1, h2r, Option.some_bind]
            by_cases ht2 : is_utf8tail (byteAt s 2) = true
            · rw [if_pos ht2, if_pos ⟨ht1, ht2⟩]
            · rw [if_neg ht2, if_neg (by tauto), map_loop?_eq s 3 h1]
          · rw [if_neg ht1, if_neg (by tauto), map_loop?_eq s 3 h1]
        · rw [if_neg hD, if_neg hD]
          by_cases hE : byteAt s 0 = 0xED
          · rw [if_pos hE, if_pos hE, h1r, Option.some_bind]
            by_cases hr : 0x80 ≤ byteAt s 1 ∧ byteAt s 1 ≤ 0x9F
            · have h2 : 2 ≤ nulIdx s := nulIdx_succ_le s 1 (by omega) h1
              have h2r : byteAt? s 2 = some (byteAt s 2) := byteAt?_eq_some s 2 h2
              rw [if_pos hr, h2r, Option.some_bind]
              by_cases ht2 : is_utf8tail (byteAt s 2) = true
              · rw [if_pos ht2, if_pos ⟨hr.1, hr.2, ht2⟩]
              · rw [if_neg ht2, if_neg (by tauto), map_loop?_eq s 3 h1]
            · rw [if_neg hr, if_neg (by tauto), map_loop?_eq s 3 h1]
          · rw [if_neg hE, if_neg hE]
            by_cases hF : byteAt s 0 = 0xF0
            · rw [if_pos hF, if_pos hF, h1r, Option.some_bind]
              by_cases hr : 0x90 ≤ byteAt s 1 ∧ byteAt s 1 ≤ 0xBF
              · have h2 : 2 ≤ nulIdx s := nulIdx_succ_le s 1 (by omega) h1
                have h2r : byteAt? s 2 = some (byteAt s 2) :=
                  byteAt?_eq_some s 2 h2
                rw [if_pos hr, h2r, Option.some_bind]
                by_cases ht2 : is_utf8tail (byteAt s 2) = true
                · have h3 : 3 ≤ nulIdx s :=
                    nulIdx_succ_le s 2 (is_utf8tail_ne_zero _ ht2) h2
                  have h3r : byteAt? s 3 = some (byteAt s 3) :=
                    byteAt?_eq_some s 3 h3
                  rw [if_pos ht2, h3r, Option.some_bind]
                  by_cases ht3 : is_utf8tail (byteAt s 3) = true
                  · rw [if_pos ht3, if_pos ⟨hr.1, hr.2, ht2, ht3⟩]
                  · rw [if_neg ht3, if_neg (by tauto), map_loop?_eq s 4 h1]
                · rw [if_neg ht2, if_neg (by tauto), map_loop?_eq s 4 h1]
              · rw [if_neg hr, if_neg (by tauto), map_loop?_eq s 4 h1]
            · rw [if_neg hF, if_neg hF]
              by_cases hG : 0xF1 ≤ byteAt s 0 ∧ byteAt s 0 ≤ 0xF3
              · rw [if_pos hG, if_pos hG, h1r, Option.some_bind]
                by_cases ht1 : is_utf8tail (byteAt s 1) = true
                · have h2 : 2 ≤ nulIdx s :=
                    nulIdx_succ_le s 1 (is_utf8tail_ne_zero _ ht1) h1
                  have h2r : byteAt? s 2 = some (byteAt s 2) :=
                    byteAt?_eq_some s 2 h2
                  rw [if_pos ht1, h2r, Option.some_bind]
                  by_cases ht2 : is_utf8tail (byteAt s 2) = true
                  · have h3 : 3 ≤ nulIdx s :=
                      nulIdx_succ_le s 2 (is_utf8tail_ne_zero _ ht2) h2
                    have h3r : byteAt? s 3 = some (byteAt s 3) :=
                      byteAt?_eq_some s 3 h3
                    rw [if_pos ht2, h3r, Option.some_bind]
                    by_cases ht3 : is_utf8tail (byteAt s 3) = true
                    · rw [if_pos ht3, if_pos ⟨ht1, ht2, ht3⟩]
                    · rw [if_neg ht3, if_neg (by tauto), map_loop?_eq s 4 h1]
                  · rw [if_neg ht2, if_neg (by tauto), map_loop?_eq s 4 h1]
                · rw [if_neg ht1, if_neg (by tauto), map_loop?_eq s 4 h1]
              · rw [if_neg hG, if_neg hG]
                by_cases hH : byteAt s 0 = 0xF4
                · rw [if_pos hH, if_pos hH, h1r, Option.some_bind]
                  by_cases hr : 0x80 ≤ byteAt s 1 ∧ byteAt s 1 ≤ 0x8F
                  · have h2 : 2 ≤ nulIdx s := nulIdx_succ_le s 1 (by omega) h1
                    have h2r : byteAt? s 2 = some (byteAt s 2) :=
                      byteAt?_eq_some s 2 h2
                    rw [if_pos hr, h2r, Option.some_bind]
                    by_cases ht2 : is_utf8tail (byteAt s 2) = true
                    · have h3 : 3 ≤ nulIdx s :=
                        nulIdx_succ_le s 2 (is_utf8tail_ne_zero _ ht2) h2
                      have h3r : byteAt? s 3 = some (byteAt s 3) :=
                        byteAt?_eq_some s 3 h3
                      rw [if_pos ht2, h3r, Option.some_bind]
                      by_cases ht3 : is_utf8tail (byteAt s 3) = true
                      · rw [if_pos ht3, if_pos ⟨hr.1, hr.2, ht2, ht3⟩]
                      · rw [if_neg ht3, if_neg (by tauto), map_loop?_eq s 4 h1]
                    · rw [if_neg ht2, if_neg (by tauto), map_loop?_eq s 4 h1]
                  · rw [if_neg hr, if_neg (by tauto), map_loop?_eq s 4 h1]
                · rw [if_neg hH, if_neg hH, map_loop?_eq s SIZE_MAX h1]

/-! ## Branch characterizations of the classifier -/

theorem core_snd_some (s : List Nat) (k : Nat)
    (h : (utf8clen_core s).2 = some k) :
    0x7F < byteAt s 0 ∧ k = count_illegal_sequences s (leadCap (byteAt s 0)) := by
  simp only [utf8clen_core] at h
  split_ifs at h <;>
    simp only [Prod.snd, Option.some.injEq, reduceCtorEq] at h <;>
    refine ⟨by omega, ?_⟩ <;>
    rw [← h] <;>
    congr 1 <;>
    simp only [leadCap, SIZE_MAX] <;>
    split_ifs <;>
    omega

theorem core_fst_le (s : List Nat) : (utf8clen_core s).1 ≤ 4 := by
  simp only [utf8clen_core]
  split_ifs <;> simp

theorem core_write_iff (s : List Nat) :
    (utf8clen_core s).2.isSome = true ↔ (utf8clen_core s).1 = 0 := by
  simp only [utf8clen_core]
  split_ifs <;> simp

theorem core_ascii (s : List Nat) (h : byteAt s 0 ≤ 0x7F) :
    utf8clen_core s = (1, none) := by
  simp only [utf8clen_core]
  rw [if_pos h]

theorem core_valid2 (s : List Nat)
    (h0 : 0xC2 ≤ byteAt s 0 ∧ byteAt s 0 ≤ 0xDF)
    (h1 : 0x80 ≤ byteAt s 1 ∧ byteAt s 1 ≤ 0xBF) :
    utf8clen_core s = (2, none) := by
  have ht1 : is_utf8tail (byteAt s 1) = true :=
    (is_utf8tail_iff _ (by omega)).mpr h1
  simp only [utf8clen_core]
  rw [if_neg (by omega), if_pos h0, if_pos ht1]

theorem core_valid3_e0 (s : List Nat) (h0 : byteAt s 0 = 0xE0)
    (h1 : 0xA0 ≤ byteAt s 1 ∧ byteAt s 1 ≤ 0xBF)
    (h2 : 0x80 ≤ byteAt s 2 ∧ byteAt s 2 ≤ 0xBF) :
    utf8clen_core s = (3, none) := by
  have ht2 : is_utf8tail (byteAt s 2) = true :=
    (is_utf8tail_iff _ (by omega)).mpr h2
  simp only [utf8clen_core]
  rw [if_neg (by omega), if_neg (by omega), if_pos h0,
    if_pos ⟨h1.1, h1.2, ht2⟩]

theorem core_valid3_mid (s : List Nat)
    (h0 : (0xE1 ≤ byteAt s 0 ∧ byteAt s 0 ≤ 0xEC) ∨
      (0xEE ≤ byteAt s 0 ∧ byteAt s 0 ≤ 0xEF))
    (h1 : 0x80 ≤ byteAt s 1 ∧ byteAt s 1 ≤ 0xBF)
    (h2 : 0x80 ≤ byteAt s 2 ∧ byteAt s 2 ≤ 0xBF) :
    utf8clen_core s = (3, none) := by
  have ht1 : is_utf8tail (byteAt s 1) = true :=
    (is_utf8tail_iff _ (by omega)).mpr h1
  have ht2 : is_utf8tail (byteAt s 2) = true :=
    (is_utf8tail_iff _ (by omega)).mpr h2
  have n1 : ¬byteAt s 0 ≤ 0x7F := by omega
  have n2 : ¬(0xC2 ≤ byteAt s 0 ∧ byteAt s 0 ≤ 0xDF) := by omega
  have n3 : byteAt s 0 ≠ 0xE0 := by omega
  simp only [utf8clen_core]
  rw [if_neg n1, if_neg n2, if_neg n3, if_pos h0, if_pos ⟨ht1, ht2⟩]

theorem core_valid3_ed (s : List Nat) (h0 : byteAt s 0 = 0xED)
    (h1 : 0x80 ≤ byteAt s 1 ∧ byteAt s 1 ≤ 0x9F)
    (h2 : 0x80 ≤ byteAt s 2 ∧ byteAt s 2 ≤ 0xBF) :
    utf8clen_core s = (3, none) := by
  have ht2 : is_utf8tail (byteAt s 2) = true :=
    (is_utf8tail_iff _ (by omega)).mpr h2
  have n1 : ¬byteAt s 0 ≤ 0x7F := by omega
  have n2 : ¬(0xC2 ≤ byteAt s 0 ∧ byteAt s 0 ≤ 0xDF) := by omega
  have n3 : byteAt s 0 ≠ 0xE0 := by omega
  have n4 : ¬((0xE1 ≤ byteAt s 0 ∧ byteAt s 0 ≤ 0xEC) ∨
      (0xEE ≤ byteAt s 0 ∧ byteAt s 0 ≤ 0xEF)) := by omega
  simp only [utf8clen_core]
  rw [if_neg n1, if_neg n2, if_neg n3, if_neg n4, if_pos h0,
    if_pos ⟨h1.1, h1.2, ht2⟩]

theorem core_valid4_f0 (s : List Nat) (h0 : byteAt s 0 = 0xF0)
    (h1 : 0x90 ≤ byteAt s 1 ∧ byteAt s 1 ≤ 0xBF)
    (h2 : 0x80 ≤ byteAt s 2 ∧ byteAt s 2 ≤ 0xBF)
    (h3 : 0x80 ≤ byteAt s 3 ∧ byteAt s 3 ≤ 0xBF) :
    utf8clen_core s = (4, none) := by
  have ht2 : is_utf8tail (byteAt s 2) = true :=
    (is_utf8tail_iff _ (by omega)).mpr h2
  have ht3 : is_utf8tail (byteAt s 3) = true :=
    (is_utf8tail_iff _ (by omega)).mpr h3
  have n1 : ¬byteAt s 0 ≤ 0x7F := by omega
  have n2 : ¬(0xC2 ≤ byteAt s 0 ∧ byteAt s 0 ≤ 0xDF) := by omega
  have n3 : byteAt s 0 ≠ 0xE0 := by omega
  have n4 : ¬((0xE1 ≤ byteAt s 0 ∧ byteAt s 0 ≤ 0xEC) ∨
      (0xEE ≤ byteAt s 0 ∧ byteAt s 0 ≤ 0xEF)) := by omega
  have n5 : byteAt s 0 ≠ 0xED := by omega
  simp only [utf8clen_core]
  rw [if_neg n1, if_neg n2, if_neg n3, if_neg n4, if_neg n5, if_pos h0,
    if_pos ⟨h1.1, h1.2, ht2, ht3⟩]

theorem core_valid4_mid (s : List Nat)
    (h0 : 0xF1 ≤ byteAt s 0 ∧ byteAt s 0 ≤ 0xF3)
    (h1 : 0x80 ≤ byteAt s 1 ∧ byteAt s 1 ≤ 0xBF)
    (h2 : 0x80 ≤ byteAt s 2 ∧ byteAt s 2 ≤ 0xBF)
    (h3 : 0x80 ≤ byteAt s 3 ∧ byteAt s 3 ≤ 0xBF) :
    utf8clen_core s = (4, none) := by
  have ht1 : is_utf8tail (byteAt s 1) = true :=
    (is_utf8tail_iff _ (by omega)).mpr h1
  have ht2 : is_utf8tail (byteAt s 2) = true :=
    (is_utf8tail_iff _ (by omega)).mpr h2
  have ht3 : is_utf8tail (byteAt s 3) = true :=
    (is_utf8tail_iff _ (by omega)).mpr h3
  have n1 : ¬byteAt s 0 ≤ 0x7F := by omega
  have n2 : ¬(0xC2 ≤ byteAt s 0 ∧ byteAt s 0 ≤ 0xDF) := by omega
  have n3 : byteAt s 0 ≠ 0xE0 := by omega
  have n4 : ¬((0xE1 ≤ byteAt s 0 ∧ byteAt s 0 ≤ 0xEC) ∨
      (0xEE ≤ byteAt s 0 ∧ byteAt s 0 ≤ 0xEF)) := by omega
  have n5 : byteAt s 0 ≠ 0xED := by omega
  have n6 : byteAt s 0 ≠ 0xF0 := by omega
  simp only [utf8clen_core]
  rw [if_neg n1, if_neg n2, if_neg n3, if_neg n4, if_neg n5, if_neg n6,
    if_pos h0, if_pos ⟨ht1, ht2, ht3⟩]

theorem core_valid4_f4 (s : List Nat) (h0 : byteAt s 0 = 0xF4)
    (h1 : 0x80 ≤ byteAt s 1 ∧ byteAt s 1 ≤ 0x8F)
    (h2 : 0x80 ≤ byteAt s 2 ∧ byteAt s 2 ≤ 0xBF)
    (h3 : 0x80 ≤ byteAt s 3 ∧ byteAt s 3 ≤ 0xBF) :
    utf8clen_core s = (4, none) := by
  have ht2 : is_utf8tail (byteAt s 2) = true :=
    (is_utf8tail_iff _ (by omega)).mpr h2
  have ht3 : is_utf8tail (byteAt s 3) = true :=
    (is_utf8tail_iff _ (by omega)).mpr h3
  have n1 : ¬byteAt s 0 ≤ 0x7F := by omega
  have n2 : ¬(0xC2 ≤ byteAt s 0 ∧ byteAt s 0 ≤ 0xDF) := by omega
  have n3 : byteAt s 0 ≠ 0xE0 := by omega
  have n4 : ¬((0xE1 ≤ byteAt s 0 ∧ byteAt s 0 ≤ 0xEC) ∨
      (0xEE ≤ byteAt s 0 ∧ byteAt s 0 ≤ 0xEF)) := by omega
  have n5 : byteAt s 0 ≠ 0xED := by omega
  have n6 : byteAt s 0 ≠ 0xF0 := by omega
  have n7 : ¬(0xF1 ≤ byteAt s 0 ∧ byteAt s 0 ≤ 0xF3) := by omega
  simp only [utf8clen_core]
  rw [if_neg n1, if_neg n2, if_neg n3, if_neg n4, if_neg n5, if_neg n6,
    if_neg n7, if_pos h0, if_pos ⟨h1.1, h1.2, ht2, ht3⟩]

theorem is_utf8firstb_eq_false (c : Nat)
    (h : ¬(c ≤ 0x7F ∨ (0xC2 ≤ c ∧ c ≤ 0xDF) ∨ (0xE0 ≤ c ∧ c ≤ 0xEF) ∨
      (0xF0 ≤ c ∧ c ≤ 0xF4))) : is_utf8firstb c = false := by
  cases hb : is_utf8firstb c
  · rfl
  · exact absurd ((is_utf8firstb_iff c).mp hb) h

theorem core_invalid2 (s : List Nat)
    (h0 : 0xC2 ≤ byteAt s 0 ∧ byteAt s 0 ≤ 0xDF)
    (ht : is_utf8tail (byteAt s 1) = false) :
    utf8clen_core s = (0, some (count_illegal_sequences s 2)) := by
  simp only [utf8clen_core]
  rw [if_neg (by omega), if_pos h0, if_neg (by simp [ht])]

theorem core_invalid3_e0 (s : List Nat) (h0 : byteAt s 0 = 0xE0)
    (h : ¬(0xA0 ≤ byteAt s 1 ∧ byteAt s 1 ≤ 0xBF ∧
      is_utf8tail (byteAt s 2) = true)) :
    utf8clen_core s = (0, some (count_illegal_sequences s 3)) := by
  simp only [utf8clen_core]
  rw [if_neg (by omega), if_neg (by omega), if_pos h0, if_neg h]

theorem core_invalid3_mid (s : List Nat)
    (h0 : (0xE1 ≤ byteAt s 0 ∧ byteAt s 0 ≤ 0xEC) ∨
      (0xEE ≤ byteAt s 0 ∧ byteAt s 0 ≤ 0xEF))
    (h : ¬(is_utf8tail (byteAt s 1) = true ∧ is_utf8tail (byteAt s 2) = true)) :
    utf8clen_core s = (0, some (count_illegal_sequences s 3)) := by
  have n1 : ¬byteAt s 0 ≤ 0x7F := by omega
  have n2 : ¬(0xC2 ≤ byteAt s 0 ∧ byteAt s 0 ≤ 0xDF) := by omega
  have n3 : byteAt s 0 ≠ 0xE0 := by omega
  simp only [utf8clen_core]
  rw [if_neg n1, if_neg n2, if_neg n3, if_pos h0, if_neg h]

theorem core_invalid3_ed (s : List Nat) (h0 : byteAt s 0 = 0xED)
    (h : ¬(0x80 ≤ byteAt s 1 ∧ byteAt s 1 ≤ 0x9F ∧
      is_utf8tail (byteAt s 2) = true)) :
    utf8clen_core s = (0, some (count_illegal_sequences s 3)) := by
  have n1 : ¬byteAt s 0 ≤ 0x7F := by omega
  have n2 : ¬(0xC2 ≤ byteAt s 0 ∧ byteAt s 0 ≤ 0xDF) := by omega
  have n3 : byteAt s 0 ≠ 0xE0 := by omega
  have n4 : ¬((0xE1 ≤ byteAt s 0 ∧ byteAt s 0 ≤ 0xEC) ∨
      (0xEE ≤ byteAt s 0 ∧ byteAt s 0 ≤ 0xEF)) := by omega
  simp only [utf8clen_core]
  rw [if_neg n1, if_neg n2, if_neg n3, if_neg n4, if_pos h0, if_neg h]

theorem core_invalid4_f0 (s : List Nat) (h0 : byteAt s 0 = 0xF0)
    (h : ¬(0x90 ≤ byteAt s 1 ∧ byteAt s 1 ≤ 0xBF ∧
      is_utf8tail (byteAt s 2) = true ∧ is_utf8tail (byteAt s 3) = true)) :
    utf8clen_core s = (0, some (count_illegal_sequences s 4)) := by
  have n1 : ¬byteAt s 0 ≤ 0x7F := by omega
  have n2 : ¬(0xC2 ≤ byteAt s 0 ∧ byteAt s 0 ≤ 0xDF) := by omega
  have n3 : byteAt s 0 ≠ 0xE0 := by omega
  have n4 : ¬((0xE1 ≤ byteAt s 0 ∧ byteAt s 0 ≤ 0xEC) ∨
      (0xEE ≤ byteAt s 0 ∧ byteAt s 0 ≤ 0xEF)) := by omega
  have n5 : byteAt s 0 ≠ 0xED := by omega
  simp only [utf8clen_core]
  rw [if_neg n1, if_neg n2, if_neg n3, if_neg n4, if_neg n5, if_pos h0,
    if_neg h]

theorem core_invalid4_mid (s : List Nat)
    (h0 : 0xF1 ≤ byteAt s 0 ∧ byteAt s 0 ≤ 0xF3)
    (h : ¬(is_utf8tail (byteAt s 1) = true ∧ is_utf8tail (byteAt s 2) = true ∧
      is_utf8tail (byteAt s 3) = true)) :
    utf8clen_core s = (0, some (count_illegal_sequences s 4)) := by
  have n1 : ¬byteAt s 0 ≤ 0x7F := by omega
  have n2 : ¬(0xC2 ≤ byteAt s 0 ∧ byteAt s 0 ≤ 0xDF) := by omega
  have n3 : byteAt s 0 ≠ 0xE0 := by omega
  have n4 : ¬((0xE1 ≤ byteAt s 0 ∧ byteAt s 0 ≤ 0xEC) ∨
      (0xEE ≤ byteAt s 0 ∧ byteAt s 0 ≤ 0xEF)) := by omega
  have n5 : byteAt s 0 ≠ 0xED := by omega
  have n6 : byteAt s 0 ≠ 0xF0 := by omega
  simp only [utf8clen_core]
  rw [if_neg n1, if_neg n2, if_neg n3, if_neg n4, if_neg n5, if_neg n6,
    if_pos h0, if_neg h]

theorem core_invalid4_f4 (s : List Nat) (h0 : byteAt s 0 = 0xF4)
    (h : ¬(0x80 ≤ byteAt s 1 ∧ byteAt s 1 ≤ 0x8F ∧
      is_utf8tail (byteAt s 2) = true ∧ is_utf8tail (byteAt s 3) = true)) :
    utf8clen_core s = (0, some (count_illegal_sequences s 4)) := by
  have n1 : ¬byteAt s 0 ≤ 0x7F := by omega
  have n2 : ¬(0xC2 ≤ byteAt s 0 ∧ byteAt s 0 ≤ 0xDF) := by omega
  have n3 : byteAt s 0 ≠ 0xE0 := by omega
  have n4 : ¬((0xE1 ≤ byteAt s 0 ∧ byteAt s 0 ≤ 0xEC) ∨
      (0xEE ≤ byteAt s 0 ∧ byteAt s 0 ≤ 0xEF)) := by omega
  have n5 : byteAt s 0 ≠ 0xED := by omega
  have n6 : byteAt s 0 ≠ 0xF0 := by omega
  have n7 : ¬(0xF1 ≤ byteAt s 0 ∧ byteAt s 0 ≤ 0xF3) := by omega
  simp only [utf8clen_core]
  rw [if_neg n1, if_neg n2, if_neg n3, if_neg n4, if_neg n5, if_neg n6,
    if_neg n7, if_pos h0, if_neg h]

theorem core_invalid_other (s : List Nat) (hA : 0x7F < byteAt s 0)
    (hB : ¬(0xC2 ≤ byteAt s 0 ∧ byteAt s 0 ≤ 0xDF))
    (hC : ¬(0xE0 ≤ byteAt s 0 ∧ byteAt s 0 ≤ 0xEF))
    (hD : ¬(0xF0 ≤ byteAt s 0 ∧ byteAt s 0 ≤ 0xF4)) :
    utf8clen_core s = (0, some (count_illegal_sequences s SIZE_MAX)) := by
  have n1 : ¬byteAt s 0 ≤ 0x7F := by omega
  have n2 : ¬(0xC2 ≤ byteAt s 0 ∧ byteAt s 0 ≤ 0xDF) := by omega
  have n3 : byteAt s 0 ≠ 0xE0 := by omega
  have n4 : ¬((0xE1 ≤ byteAt s 0 ∧ byteAt s 0 ≤ 0xEC) ∨
      (0xEE ≤ byteAt s 0 ∧ byteAt s 0 ≤ 0xEF)) := by omega
  have n5 : byteAt s 0 ≠ 0xED := by omega
  have n6 : byteAt s 0 ≠ 0xF0 := by omega
  have n7 : ¬(0xF1 ≤ byteAt s 0 ∧ byteAt s 0 ≤ 0xF3) := by omega
  have n8 : byteAt s 0 ≠ 0xF4 := by omega
  simp only [utf8clen_core]
  rw [if_neg n1, if_neg n2, if_neg n3, if_neg n4, if_neg n5, if_neg n6,
    if_neg n7, if_neg n8]

/-! ## Specification claims -/

/-- C8: for every byte `b ≤ 0x7F` at the cursor — including NUL itself — the
classifier returns `Valid(1)` and leaves the illegal-length output untouched,
whatever bytes follow. -/
theorem spec_ascii_identity (b : Nat) (rest : List Nat) (hb : b ≤ 0x7F) :
    utf8clen_core (b :: rest) = (1, none) :=
  core_ascii (b :: rest) (by rw [byteAt_cons_zero]; exact hb)

/-- Witness for C8 at the NUL byte itself. -/
theorem spec_ascii_identity_witness :
    (0 : Nat) ≤ 0x7F ∧ utf8clen_core [0] = (1, none) :=
  ⟨by decide, spec_ascii_identity 0 [] (by decide)⟩

/-- C9: a NULL buffer pointer or NULL output pointer makes `utf8clen` return
`SIZE_MAX` with `errno = EINVAL`, leaving the output cell untouched. -/
theorem spec_parameter_error (s : Option (List Nat)) (illlen : Option Nat)
    (h : s = none ∨ illlen = none) :
    utf8clen s illlen = ⟨SIZE_MAX, illlen, some EINVAL⟩ := by
  rcases h with h | h
  · subst h
    cases illlen <;> rfl
  · subst h
    cases s <;> rfl

/-- Witness for C9 with a NULL buffer pointer and an output cell holding 7. -/
theorem spec_parameter_error_witness :
    ((none : Option (List Nat)) = none ∨ (some 7 : Option Nat) = none) ∧
      utf8clen none (some 7) = ⟨SIZE_MAX, some 7, some EINVAL⟩ :=
  ⟨Or.inl rfl, spec_parameter_error none (some 7) (Or.inl rfl)⟩

/-- C4: on every NUL-terminated buffer the classifier is total — the
bounds-checked rerun never hits an out-of-bounds read and agrees with the
direct model — and the single outcome is `Valid(n)` with `1 ≤ n ≤ 4` or
`Invalid`. -/
theorem spec_totality_no_oob (s : List Nat) :
    utf8clenChecked s = some (utf8clen_core s) ∧
      ((utf8clen_core s).1 = 0 ∨
        (1 ≤ (utf8clen_core s).1 ∧ (utf8clen_core s).1 ≤ 4)) := by
  refine ⟨utf8clenChecked_eq_core s, ?_⟩
  have h := core_fst_le s
  omega

/-- C7: a valid multi-byte lead byte followed immediately by the NUL
terminator yields `Invalid(1)`. -/
theorem spec_truncation_invalid1 (s : List Nat)
    (h0 : (0xC2 ≤ byteAt s 0 ∧ byteAt s 0 ≤ 0xDF) ∨
      (0xE0 ≤ byteAt s 0 ∧ byteAt s 0 ≤ 0xEF) ∨
      (0xF0 ≤ byteAt s 0 ∧ byteAt s 0 ≤ 0xF4))
    (h1 : byteAt s 1 = 0) :
    utf8clen_core s = (0, some 1) := by
  have hcis : ∀ m : Nat, count_illegal_sequences s m = 1 := fun m =>
    count_illegal_loop_of_zero s m 1 h1
  have htail : is_utf8tail (byteAt s 1) = false := by rw [h1]; decide
  rcases h0 with h | h | h
  · rw [core_invalid2 s h htail, hcis]
  · by_cases he0 : byteAt s 0 = 0xE0
    · rw [core_invalid3_e0 s he0
        (fun hcon => by have hx := hcon.1; omega), hcis]
    · by_cases hed : byteAt s 0 = 0xED
      · rw [core_invalid3_ed s hed
          (fun hcon => by have hx := hcon.1; omega), hcis]
      · rw [core_invalid3_mid s (by omega)
          (fun hcon => by have hx := hcon.1; rw [htail] at hx; cases hx),
          hcis]
  · by_cases hf0 : byteAt s 0 = 0xF0
    · rw [core_invalid4_f0 s hf0
        (fun hcon => by have hx := hcon.1; omega), hcis]
    · by_cases hf4 : byteAt s 0 = 0xF4
      · rw [core_invalid4_f4 s hf4
          (fun hcon => by have hx := hcon.1; omega), hcis]
      · rw [core_invalid4_mid s (by omega)
          (fun hcon => by have hx := hcon.1; rw [htail] at hx; cases hx),
          hcis]

/-- Witness for C7 on the truncated 2-byte lead `C3`. -/
theorem spec_truncation_invalid1_witness :
    ((0xC2 ≤ byteAt [0xC3] 0 ∧ byteAt [0xC3] 0 ≤ 0xDF) ∨
      (0xE0 ≤ byteAt [0xC3] 0 ∧ byteAt [0xC3] 0 ≤ 0xEF) ∨
      (0xF0 ≤ byteAt [0xC3] 0 ∧ byteAt [0xC3] 0 ≤ 0xF4)) ∧
    byteAt [0xC3] 1 = 0 ∧ utf8clen_core [0xC3] = (0, some 1) :=
  ⟨by decide, by decide,
    spec_truncation_invalid1 [0xC3] (by decide) (by decide)⟩

/-- C5: every 3-byte sequence `ED A0 80`..`ED BF BF` (a UTF-16 surrogate)
yields `Invalid` with illegal-run length 3, whatever bytes follow. -/
theorem spec_surrogate_rejection (b1 b2 : Nat) (rest : List Nat)
    (h1 : 0xA0 ≤ b1 ∧ b1 ≤ 0xBF) (h2 : 0x80 ≤ b2 ∧ b2 ≤ 0xBF) :
    utf8clen_core (0xED :: b1 :: b2 :: rest) = (0, some 3) := by
  have e0 : byteAt (0xED :: b1 :: b2 :: rest) 0 = 0xED := rfl
  have e1 : byteAt (0xED :: b1 :: b2 :: rest) 1 = b1 := rfl
  have e2 : byteAt (0xED :: b1 :: b2 :: rest) 2 = b2 := rfl
  have hf1 : is_utf8firstb b1 = false := is_utf8firstb_eq_false b1 (by omega)
  have hf2 : is_utf8firstb b2 = false := is_utf8firstb_eq_false b2 (by omega)
  rw [core_invalid3_ed _ e0
    (fun hcon => by have hx := hcon.2.1; rw [e1] at hx; omega)]
  rw [count_illegal_sequences]
  rw [count_illegal_loop,
    if_pos ⟨by rw [e1]; omega, by omega, by rw [e1]; exact hf1⟩]
  rw [count_illegal_loop,
    if_pos ⟨by rw [e2]; omega, by omega, by rw [e2]; exact hf2⟩]
  rw [count_illegal_loop, if_neg (fun hcon => absurd hcon.2.1 (by omega))]

/-- Witness for C5 at the surrogate `U+D800` encoding `ED A0 80`. -/
theorem spec_surrogate_rejection_witness :
    (0xA0 ≤ 0xA0 ∧ 0xA0 ≤ 0xBF) ∧ (0x80 ≤ 0x80 ∧ 0x80 ≤ 0xBF) ∧
      utf8clen_core [0xED, 0xA0, 0x80] = (0, some 3) :=
  ⟨by decide, by decide,
    spec_surrogate_rejection 0xA0 0x80 [] (by decide) (by decide)⟩

/-- C6: every overlong encoding — `C0 80`, `C1 BF`, `E0 80 80`..`E0 9F BF`,
`F0 80 80 80`..`F0 8F BF BF` — yields `Invalid` when classified at its first
byte. -/
theorem spec_overlong_rejection :
    (∀ rest : List Nat, (utf8clen_core (0xC0 :: 0x80 :: rest)).1 = 0) ∧
    (∀ rest : List Nat, (utf8clen_core (0xC1 :: 0xBF :: rest)).1 = 0) ∧
    (∀ (b1 b2 : Nat) (rest : List Nat), 0x80 ≤ b1 → b1 ≤ 0x9F → 0x80 ≤ b2 →
      b2 ≤ 0xBF → (utf8clen_core (0xE0 :: b1 :: b2 :: rest)).1 = 0) ∧
    (∀ (b1 b2 b3 : Nat) (rest : List Nat), 0x80 ≤ b1 → b1 ≤ 0x8F →
      0x80 ≤ b2 → b2 ≤ 0xBF → 0x80 ≤ b3 → b3 ≤ 0xBF →
      (utf8clen_core (0xF0 :: b1 :: b2 :: b3 :: rest)).1 = 0) := by
  refine ⟨?_, ?_, ?_, ?_⟩
  · intro rest
    have e0 : byteAt (0xC0 :: 0x80 :: rest) 0 = 0xC0 := rfl
    rw [core_invalid_other _ (by rw [e0]; omega) (by rw [e0]; omega)
      (by rw [e0]; omega) (by rw [e0]; omega)]
  · intro rest
    have e0 : byteAt (0xC1 :: 0xBF :: rest) 0 = 0xC1 := rfl
    rw [core_invalid_other _ (by rw [e0]; omega) (by rw [e0]; omega)
      (by rw [e0]; omega) (by rw [e0]; omega)]
  · intro b1 b2 rest ha hb hc hd
    have e0 : byteAt (0xE0 :: b1 :: b2 :: rest) 0 = 0xE0 := rfl
    have e1 : byteAt (0xE0 :: b1 :: b2 :: rest) 1 = b1 := rfl
    rw [core_invalid3_e0 _ e0
      (fun hcon => by have hx := hcon.1; rw [e1] at hx; omega)]
  · intro b1 b2 b3 rest ha hb hc hd he hf
    have e0 : byteAt (0xF0 :: b1 :: b2 :: b3 :: rest) 0 = 0xF0 := rfl
    have e1 : byteAt (0xF0 :: b1 :: b2 :: b3 :: rest) 1 = b1 := rfl
    rw [core_invalid4_f0 _ e0
      (fun hcon => by have hx := hcon.1; rw [e1] at hx; omega)]

/-- Witness for C6 at one concrete member of each overlong family. -/
theorem spec_overlong_rejection_witness :
    (utf8clen_core [0xC0, 0x80]).1 = 0 ∧
    (utf8clen_core [0xC1, 0xBF]).1 = 0 ∧
    (utf8clen_core [0xE0, 0x80, 0x80]).1 = 0 ∧
    (utf8clen_core [0xF0, 0x8F, 0xBF, 0xBF]).1 = 0 :=
  ⟨spec_overlong_rejection.1 [], spec_overlong_rejection.2.1 [],
    spec_overlong_rejection.2.2.1 0x80 0x80 [] (by decide) (by decide)
      (by decide) (by decide),
    spec_overlong_rejection.2.2.2 0x8F 0xBF 0xBF [] (by decide) (by decide)
      (by decide) (by decide) (by decide) (by decide)⟩

/-- C3 counterexample: on the buffer `F5 80` the lead byte is in `F5`-`FF`,
yet the illegal-run length is 2, not 1 — the run extends over the following
non-lead byte, refuting "always `Invalid(1)` regardless of what follows". -/
theorem spec_ceiling_rejection_cex :
    0xF5 ≤ byteAt [0xF5, 0x80] 0 ∧ byteAt [0xF5, 0x80] 0 ≤ 0xFF ∧
    utf8clen_core [0xF5, 0x80] = (0, some 2) ∧
    (utf8clen_core [0xF5, 0x80]).2 ≠ some 1 := by
  have h : utf8clen_core [0xF5, 0x80] = (0, some 2) := by
    simp [utf8clen_core, count_illegal_sequences, count_illegal_loop, byteAt,
      is_utf8firstb, SIZE_MAX]
  exact ⟨by decide, by decide, h, by rw [h]; decide⟩

/-- C3 (amended): a lead byte in `F5`-`FF` always yields `Invalid` with
illegal-run length at least 1, and the length is exactly 1 whenever the
following byte is the NUL terminator or a valid first byte. -/
theorem spec_ceiling_rejection_amended (s : List Nat)
    (h : 0xF5 ≤ byteAt s 0 ∧ byteAt s 0 ≤ 0xFF) :
    ∃ k, utf8clen_core s = (0, some k) ∧ 1 ≤ k ∧
      ((byteAt s 1 = 0 ∨ is_utf8firstb (byteAt s 1) = true) → k = 1) := by
  have hcore := core_invalid_other s (by omega) (by omega) (by omega)
    (by omega)
  refine ⟨count_illegal_sequences s SIZE_MAX, hcore,
    count_illegal_loop_ge s SIZE_MAX 1, ?_⟩
  intro hnext
  rcases hnext with hz | hf
  · exact count_illegal_loop_of_zero s SIZE_MAX 1 hz
  · exact count_illegal_loop_of_firstb s SIZE_MAX 1 hf

/-- Witness for the amended C3 at the bare buffer `F5`. -/
theorem spec_ceiling_rejection_amended_witness :
    (0xF5 ≤ byteAt [0xF5] 0 ∧ byteAt [0xF5] 0 ≤ 0xFF) ∧
    ∃ k, utf8clen_core [0xF5] = (0, some k) ∧ 1 ≤ k ∧
      ((byteAt [0xF5] 1 = 0 ∨ is_utf8firstb (byteAt [0xF5] 1) = true) →
        k = 1) :=
  ⟨by decide, spec_ceiling_rejection_amended [0xF5] (by decide)⟩

/-- C2: whenever the classifier reports `Invalid(k)`: `k ≥ 1`; every byte at
offsets `1..k-1` is non-NUL and not a valid first byte; `k` never exceeds
the per-lead cap; and the byte at offset `k` is the terminator, a valid
first byte, or the cap was reached. -/
theorem spec_illegal_run (s : List Nat) (k : Nat)
    (h : (utf8clen_core s).2 = some k) :
    1 ≤ k ∧
    (∀ i, 1 ≤ i → i < k →
      byteAt s i ≠ 0 ∧ is_utf8firstb (byteAt s i) = false) ∧
    k ≤ leadCap (byteAt s 0) ∧
    (byteAt s k = 0 ∨ is_utf8firstb (byteAt s k) = true ∨
      k = leadCap (byteAt s 0)) := by
  obtain ⟨hgt, hk⟩ := core_snd_some s k h
  subst hk
  have hcap1 : 1 ≤ leadCap (byteAt s 0) := by
    simp only [leadCap]
    split_ifs <;> norm_num [SIZE_MAX]
  refine ⟨count_illegal_loop_ge s _ 1, ?_,
    count_illegal_loop_le s _ 1 hcap1, ?_⟩
  · intro i h1 h2
    have hmid := count_illegal_loop_mid s (leadCap (byteAt s 0)) 1 i h1 h2
    exact ⟨hmid.1, hmid.2.1⟩
  · exact count_illegal_loop_stop s (leadCap (byteAt s 0)) 1 hcap1

/-- Witness for C2 on the lone continuation byte `80`. -/
theorem spec_illegal_run_witness :
    (utf8clen_core [0x80]).2 = some 1 ∧
    (1 ≤ 1 ∧
      (∀ i, 1 ≤ i → i < 1 →
        byteAt [0x80] i ≠ 0 ∧ is_utf8firstb (byteAt [0x80] i) = false) ∧
      1 ≤ leadCap (byteAt [0x80] 0) ∧
      (byteAt [0x80] 1 = 0 ∨ is_utf8firstb (byteAt [0x80] 1) = true ∨
        1 = leadCap (byteAt [0x80] 0))) := by
  have h : (utf8clen_core [0x80]).2 = some 1 := by
    simp [utf8clen_core, count_illegal_sequences, count_illegal_loop, byteAt,
      is_utf8firstb, SIZE_MAX]
  exact ⟨h, spec_illegal_run [0x80] 1 h⟩

/-- C10: the return value is always in `{0,1,2,3,4, SIZE_MAX}`; `*illlen` is
written iff the return value is 0, and the written value is then at least 1;
on a valid return and on parameter error the output cell keeps its prior
value. -/
theorem spec_return_frame (buf : List Nat) (ill : Nat) :
    ((utf8clen (some buf) (some ill)).ret ≤ 4 ∨
      (utf8clen (some buf) (some ill)).ret = SIZE_MAX) ∧
    ((utf8clen (some buf) (some ill)).ret = 0 →
      ∃ k, 1 ≤ k ∧ (utf8clen_core buf).2 = some k ∧
        (utf8clen (some buf) (some ill)).ill = some k) ∧
    ((utf8clen (some buf) (some ill)).ret ≠ 0 →
      (utf8clen_core buf).2 = none ∧
      (utf8clen (some buf) (some ill)).ill = some ill) ∧
    (∀ (sp : Option (List Nat)) (ip : Option Nat), sp = none ∨ ip = none →
      (utf8clen sp ip).ill = ip) := by
  have hret : (utf8clen (some buf) (some ill)).ret = (utf8clen_core buf).1 :=
    rfl
  refine ⟨?_, ?_, ?_, ?_⟩
  · left
    rw [hret]
    exact core_fst_le buf
  · intro h0
    rw [hret] at h0
    have hsome : (utf8clen_core buf).2.isSome = true :=
      (core_write_iff buf).mpr h0
    obtain ⟨k, hk⟩ := Option.isSome_iff_exists.mp hsome
    obtain ⟨-, hkeq⟩ := core_snd_some buf k hk
    refine ⟨k, ?_, hk, ?_⟩
    · rw [hkeq]
      exact count_illegal_loop_ge buf _ 1
    · show some (match (utf8clen_core buf).2 with
        | some k => k | none => ill) = some k
      rw [hk]
  · intro hne
    rw [hret] at hne
    have hnone : (utf8clen_core buf).2 = none := by
      cases hw : (utf8clen_core buf).2 with
      | none => rfl
      | some k =>
        exact absurd ((core_write_iff buf).mp (by rw [hw]; rfl)) hne
    refine ⟨hnone, ?_⟩
    show some (match (utf8clen_core buf).2 with
      | some k => k | none => ill) = some ill
    rw [hnone]
  · intro sp ip h
    rcases h with h | h
    · subst h
      cases ip <;> rfl
    · subst h
      cases sp <;> rfl

/-- Witness for C10: an invalid buffer writes the run length, a valid one
leaves the cell alone. -/
theorem spec_return_frame_witness :
    (utf8clen (some [0x80]) (some 7)).ret = 0 ∧
    (∃ k, 1 ≤ k ∧ (utf8clen_core [0x80]).2 = some k ∧
      (utf8clen (some [0x80]) (some 7)).ill = some k) ∧
    (utf8clen (some [0x41]) (some 7)).ill = some 7 := by
  have h0 : (utf8clen (some [0x80]) (some 7)).ret = 0 := by
    simp [utf8clen, utf8clen_core, count_illegal_sequences,
      count_illegal_loop, byteAt, is_utf8firstb, SIZE_MAX]
  refine ⟨h0, (spec_return_frame [0x80] 7).2.1 h0, ?_⟩
  exact ((spec_return_frame [0x41] 7).2.2.1 (by decide)).2

/-- C1: every scalar value in `U+0000..U+10FFFF` outside the surrogate range,
encoded with the reference UTF-8 encoder, is classified at offset 0 as
`Valid(n)` with `n` the encoder's byte count (between 1 and 4), leaving the
illegal-length output untouched. -/
theorem spec_roundtrip (cp : Nat) (hcp : cp ≤ 0x10FFFF)
    (hsur : ¬(0xD800 ≤ cp ∧ cp ≤ 0xDFFF)) :
    1 ≤ (utf8encode cp).length ∧ (utf8encode cp).length ≤ 4 ∧
      utf8clen_core (utf8encode cp) = ((utf8encode cp).length, none) := by
  by_cases h1 : cp < 0x80
  · have he : utf8encode cp = [cp] := by rw [utf8encode, if_pos h1]
    rw [he]
    have e0 : byteAt [cp] 0 = cp := rfl
    refine ⟨by simp, by simp, ?_⟩
    rw [core_ascii _ (by rw [e0]; omega)]
    simp
  · by_cases h2 : cp < 0x800
    · have he : utf8encode cp = [0xC0 + cp / 0x40, 0x80 + cp % 0x40] := by
        rw [utf8encode, if_neg h1, if_pos h2]
      rw [he]
      have e0 : byteAt [0xC0 + cp / 0x40, 0x80 + cp % 0x40] 0 =
        0xC0 + cp / 0x40 := rfl
      have e1 : byteAt [0xC0 + cp / 0x40, 0x80 + cp % 0x40] 1 =
        0x80 + cp % 0x40 := rfl
      refine ⟨by simp, by simp, ?_⟩
      rw [core_valid2 _ (by rw [e0]; omega) (by rw [e1]; omega)]
      simp
    · by_cases h3 : cp < 0x10000
      · have he : utf8encode cp = [0xE0 + cp / 0x1000,
            0x80 + cp / 0x40 % 0x40, 0x80 + cp % 0x40] := by
          rw [utf8encode, if_neg h1, if_neg h2, if_pos h3]
        rw [he]
        have e0 : byteAt [0xE0 + cp / 0x1000, 0x80 + cp / 0x40 % 0x40,
          0x80 + cp % 0x40] 0 = 0xE0 + cp / 0x1000 := rfl
        have e1 : byteAt [0xE0 + cp / 0x1000, 0x80 + cp / 0x40 % 0x40,
          0x80 + cp % 0x40] 1 = 0x80 + cp / 0x40 % 0x40 := rfl
        have e2 : byteAt [0xE0 + cp / 0x1000, 0x80 + cp / 0x40 % 0x40,
          0x80 + cp % 0x40] 2 = 0x80 + cp % 0x40 := rfl
        refine ⟨by simp, by simp, ?_⟩
        by_cases hd : cp < 0x1000
        · rw [core_valid3_e0 _ (by rw [e0]; omega) (by rw [e1]; omega)
            (by rw [e2]; omega)]
          simp
        · by_cases hed : 0xD000 ≤ cp ∧ cp < 0xE000
          · rw [core_valid3_ed _ (by rw [e0]; omega) (by rw [e1]; omega)
              (by rw [e2]; omega)]
            simp
          · rw [core_valid3_mid _ (by rw [e0]; omega) (by rw [e1]; omega)
              (by rw [e2]; omega)]
            simp
      · have he : utf8encode cp = [0xF0 + cp / 0x40000,
            0x80 + cp / 0x1000 % 0x40, 0x80 + cp / 0x40 % 0x40,
            0x80 + cp % 0x40] := by
          rw [utf8encode, if_neg h1, if_neg h2, if_neg h3]
        rw [he]
        have e0 : byteAt [0xF0 + cp / 0x40000, 0x80 + cp / 0x1000 % 0x40,
          0x80 + cp / 0x40 % 0x40, 0x80 + cp % 0x40] 0 =
          0xF0 + cp / 0x40000 := rfl
        have e1 : byteAt [0xF0 + cp / 0x40000, 0x80 + cp / 0x1000 % 0x40,
          0x80 + cp / 0x40 % 0x40, 0x80 + cp % 0x40] 1 =
          0x80 + cp / 0x1000 % 0x40 := rfl
        have e2 : byteAt [0xF0 + cp / 0x40000, 0x80 + cp / 0x1000 % 0x40,
          0x80 + cp / 0x40 % 0x40, 0x80 + cp % 0x40] 2 =
          0x80 + cp / 0x40 % 0x40 := rfl
        have e3 : byteAt [0xF0 + cp / 0x40000, 0x80 + cp / 0x1000 % 0x40,
          0x80 + cp / 0x40 % 0x40, 0x80 + cp % 0x40] 3 =
          0x80 + cp % 0x40 := rfl
        refine ⟨by simp, by simp, ?_⟩
        by_cases hf0 : cp < 0x40000
        · rw [core_valid4_f0 _ (by rw [e0]; omega) (by rw [e1]; omega)
            (by rw [e2]; omega) (by rw [e3]; omega)]
          simp
        · by_cases hf4 : 0x100000 ≤ cp
          · rw [core_valid4_f4 _ (by rw [e0]; omega) (by rw [e1]; omega)
              (by rw [e2]; omega) (by rw [e3]; omega)]
            simp
          · rw [core_valid4_mid _ (by rw [e0]; omega) (by rw [e1]; omega)
              (by rw [e2]; omega) (by rw [e3]; omega)]
            simp

/-- Witness for C1 at `U+20AC` (the euro sign, a 3-byte encoding). -/
theorem spec_roundtrip_witness :
    (0x20AC ≤ 0x10FFFF ∧ ¬(0xD800 ≤ 0x20AC ∧ 0x20AC ≤ 0xDFFF)) ∧
    (1 ≤ (utf8encode 0x20AC).length ∧ (utf8encode 0x20AC).length ≤ 4 ∧
      utf8clen_core (utf8encode 0x20AC) = ((utf8encode 0x20AC).length, none)) :=
  ⟨⟨by decide, by decide⟩, spec_roundtrip 0x20AC (by decide) (by decide)⟩
